import Mathlib

/-!
Verification of the vmaker media-processing job orchestrator.

The repository contains two parallel implementations of the same server:
`server.py` (Flask + SocketIO, threaded) and `static/app.py` (FastAPI, async),
plus `static/utils/video_tools.py`.  The definitions below are shallow
embeddings of the job-lifecycle, progress, overlay-layout, template-store and
session-cleanup logic of those files.  Numeric values are modelled with `ℚ`
(Python floats; `1.4` is modelled as `7/5`, exact at every input used in a
concrete theorem), Python strings with `String`/`List Char`, and Python's
`round(x, 2)` by round-half-up to two decimals (the two agree except at exact
`.005` ties, which occur at none of the inputs below).  Job traces record the
job-record states committed by a handler in order: the `queued` record written
by `create_job`, the `running` record, every progress update, and the terminal
record(s); filesystem and process effects enter through explicit environment
records (`ClipEnv`, `DlEnv`).
-/

namespace VMaker

/-- Python `round(x, 2)`: two-decimal rounding (half-up model). -/
def round2 (q : ℚ) : ℚ := (⌊q * 100 + 1 / 2⌋ : ℤ) / 100

/-! ### Basic string helpers (kernel-reducible, over `List Char`) -/

/-- Python `s.endswith(suf)`. -/
def pyEndsWith (s suf : String) : Bool := suf.data.isSuffixOf s.data

/-- `needle in hay` for Python strings (substring containment). -/
def listContainsSub (hay needle : List Char) : Bool :=
  match hay with
  | [] => needle.isEmpty
  | _ :: rest => needle.isPrefixOf hay || listContainsSub rest needle

def pyContains (hay needle : String) : Bool := listContainsSub hay.data needle.data

/-- ASCII model of Python `str.lower()` (all inputs of interest are ASCII). -/
def lowerChar (c : Char) : Char :=
  if 'A' ≤ c ∧ c ≤ 'Z' then Char.ofNat (c.toNat + 32) else c

def pyLower (s : String) : String := String.mk (s.data.map lowerChar)

/-! ### `ffmpeg_time_to_secs` (server.py lines 79-85 / app.py lines 313-319)

```python
def ffmpeg_time_to_secs(timestr: str) -> float:
    try:
        parts = timestr.split(':')
        h, m, s = int(parts[0]), int(parts[1]), float(parts[2])
        return h*3600 + m*60 + s
    except:
        return 0.0
```
-/

/-- Python `str.split(c)` on a single character. -/
def splitCh (c : Char) : List Char → List (List Char)
  | [] => [[]]
  | x :: xs =>
    match splitCh c xs with
    | [] => [[]]
    | h :: t => if x = c then [] :: h :: t else (x :: h) :: t

/-- Parse a nonempty all-digit string as a natural number (base 10). -/
def parseDigits : List Char → Option ℕ
  | [] => none
  | cs =>
    if cs.all Char.isDigit then
      some (cs.foldl (fun acc c => acc * 10 + (c.toNat - '0'.toNat)) 0)
    else none

/-- Python `int(s)` restricted to the unsigned-digit strings the regex yields. -/
def pyIntDigits (cs : List Char) : Option ℤ :=
  (parseDigits cs).map (fun n => (n : ℤ))

/-- Python `float(s)` restricted to `digits` or `digits.digits` strings
(the only shapes the time regex can produce). -/
def pyFloatDigits (cs : List Char) : Option ℚ :=
  match splitCh '.' cs with
  | [a] => (parseDigits a).map (fun n => (n : ℚ))
  | [a, b] =>
    match parseDigits a, parseDigits b with
    | some n, some f => some ((n : ℚ) + (f : ℚ) / ((10 : ℚ) ^ b.length))
    | _, _ => none
  | _ => none

/-- `ffmpeg_time_to_secs`: split on `:`, read `h`, `m` as ints and `s` as a
float from the first three parts; any failure (the bare `except`) yields 0.0. -/
def ffmpeg_time_to_secs (timestr : String) : ℚ :=
  let parts := splitCh ':' timestr.data
  match parts[0]?, parts[1]?, parts[2]? with
  | some p0, some p1, some p2 =>
    match pyIntDigits p0, pyIntDigits p1, pyFloatDigits p2 with
    | some h, some m, some s => (h : ℚ) * 3600 + (m : ℚ) * 60 + s
    | _, _, _ => 0
  | _, _, _ => 0

/-! ### The `time=` regex of the clip handlers

`re.search(r"time=(\d+:\d+:\d+\.\d+)", line)` — leftmost match; each `\d+`
is maximal munch here because every `\d+` is followed by a non-digit literal,
so greedy matching never backtracks. -/

/-- Longest digit prefix and the remainder. -/
def takeDigits : List Char → List Char × List Char
  | [] => ([], [])
  | c :: cs =>
    if c.isDigit then
      let r := takeDigits cs
      (c :: r.1, r.2)
    else ([], c :: cs)

/-- Try to match `\d+:\d+:\d+\.\d+` at the head of `cs`; returns the group. -/
def matchTimeGroup (cs : List Char) : Option (List Char) :=
  let (d1, r1) := takeDigits cs
  match d1, r1 with
  | [], _ => none
  | _, ':' :: r1' =>
    let (d2, r2) := takeDigits r1'
    match d2, r2 with
    | [], _ => none
    | _, ':' :: r2' =>
      let (d3, r3) := takeDigits r2'
      match d3, r3 with
      | [], _ => none
      | _, '.' :: r3' =>
        let (d4, _) := takeDigits r3'
        match d4 with
        | [] => none
        | _ => some (d1 ++ [':'] ++ d2 ++ [':'] ++ d3 ++ ['.'] ++ d4)
      | _, _ => none
    | _, _ => none
  | _, _ => none

/-- `re.search` for the pattern `time=(\d+:\d+:\d+\.\d+)`: first position where
the literal `time=` followed by the group matches. -/
def searchTimeMarker : List Char → Option (List Char)
  | [] => none
  | c :: rest =>
    match
      (if ('t' :: 'i' :: 'm' :: 'e' :: '=' :: []).isPrefixOf (c :: rest) then
        matchTimeGroup ((c :: rest).drop 5)
      else none)
    with
    | some g => some g
    | none => searchTimeMarker rest

/-- The clip handlers' per-line progress value
(server.py lines 686-695): `round(min(100.0, secs/duration*100.0), 2)`. -/
def clipProgressValue (duration secs : ℚ) : ℚ :=
  round2 (min 100 (secs / duration * 100))

/-- The whole per-line computation: `"time=" in line`, regex search, convert,
normalize. `none` means the line produced no progress write. -/
def clipProgressOfLine (line : String) (duration : ℚ) : Option ℚ :=
  if pyContains line "time=" then
    match searchTimeMarker line.data with
    | some g => some (clipProgressValue duration (ffmpeg_time_to_secs (String.mk g)))
    | none => none
  else none

/-! ### Job records (server.py `create_job`, lines 53-66 / app.py lines 128-141) -/

structure JobRec where
  kind : String
  status : String
  progress : ℚ
  result : Option String
  error : Option String
deriving DecidableEq, Repr

/-- `create_job`: fresh record, `status="queued"`, `progress=0`, no result, no
error (id and timestamps are omitted: no claim below mentions them). -/
def create_job (kind : String) : JobRec :=
  { kind := kind, status := "queued", progress := 0, result := none, error := none }

/-- The two-field mutation every `except` clause performs:
`jobs[id]["status"] = "error"; jobs[id]["error"] = str(e)` — all other fields
(in particular an already-written `result`) are left as they are. -/
def jobError (j : JobRec) (msg : String) : JobRec :=
  { j with status := "error", error := some msg }

/-! ### The clip-family handlers -/

/-- Environment of one clip-handler execution: what the filesystem and the
spawned ffmpeg process do.  `times` are the seconds values parsed from
successive `time=` stderr lines (`ffmpeg_time_to_secs` output, hence ≥ 0 in
any real run); `copyExc` is `some msg` when the post-success
`shutil.copy` into the session folder raises. -/
structure ClipEnv where
  inputExists : Bool
  times : List ℚ
  exitCode : ℤ
  hasSession : Bool
  copyExc : Option String

structure ClipMeta where
  start : ℚ
  «end» : ℚ

/-- Result of modelling one handler execution: the committed job states in
order, whether `subprocess.Popen` was reached, and the `-t` argument handed
to ffmpeg when it was. -/
structure HandlerRun where
  trace : List JobRec
  launched : Bool
  tArg : Option ℚ

/-- Last committed state of a trace (the job's final state). -/
def finalJob (trace : List JobRec) : JobRec := trace.getLastD (create_job "")

/-- Successive progress writes of the ffmpeg stderr loop: each `time=` line
rewrites only `progress`. -/
def clipProgressSnaps (j : JobRec) (duration : ℚ) : List ℚ → List JobRec
  | [] => []
  | t :: ts =>
    let j' := { j with progress := clipProgressValue duration t }
    j' :: clipProgressSnaps j' duration ts

/-- server.py `do_clip` (lines 619-729): run → validate input file →
validate `duration = end - start > 0` → spawn ffmpeg, stream progress → on
non-zero exit raise (caught: `error`) → on success write `finished`/result/
progress=100, then store metadata and copy into the session folder; a copy
exception is caught by the same `except`, which flips the job to `error`
while leaving `result` set. -/
def serverDoClip (env : ClipEnv) (meta : ClipMeta) : HandlerRun :=
  let j0 := create_job "clip"
  let j1 := { j0 with status := "running" }
  if env.inputExists = false then
    ⟨[j0, j1, jobError j1 "input file not found"], false, none⟩
  else
    let duration := meta.«end» - meta.start
    if duration ≤ 0 then
      ⟨[j0, j1, jobError j1 "invalid start/end"], false, none⟩
    else
      let snaps := clipProgressSnaps j1 duration env.times
      let jL := snaps.getLastD j1
      if env.exitCode ≠ 0 then
        ⟨[j0, j1] ++ snaps ++
            [jobError jL ("ffmpeg failed with code " ++ toString env.exitCode)],
          true, some duration⟩
      else
        let jF := { jL with
          status := "finished"
          result := some "clip_file"
          progress := 100 }
        if env.hasSession then
          match env.copyExc with
          | some msg => ⟨[j0, j1] ++ snaps ++ [jF, jobError jF msg], true, some duration⟩
          | none => ⟨[j0, j1] ++ snaps ++ [jF], true, some duration⟩
        else
          ⟨[j0, j1] ++ snaps ++ [jF], true, some duration⟩

/-- app.py `do_template_clip` (lines 408-565): same lifecycle as the clip
handler — `start`/`end` come from the request, `duration = end - start` is
validated and passed as `-t`, and the session copy sits inside the big `try`,
so a copy exception also flips the job to `error`. -/
def appDoTemplateClip (env : ClipEnv) (meta : ClipMeta) : HandlerRun :=
  let j0 := create_job "template_clip"
  let j1 := { j0 with status := "running" }
  if env.inputExists = false then
    ⟨[j0, j1, jobError j1 "input file not found"], false, none⟩
  else
    let duration := meta.«end» - meta.start
    if duration ≤ 0 then
      ⟨[j0, j1, jobError j1 "invalid start/end"], false, none⟩
    else
      let snaps := clipProgressSnaps j1 duration env.times
      let jL := snaps.getLastD j1
      if env.exitCode ≠ 0 then
        ⟨[j0, j1] ++ snaps ++
            [jobError jL ("ffmpeg failed with code " ++ toString env.exitCode)],
          true, some duration⟩
      else
        let jF := { jL with
          status := "finished"
          result := some "clip_file"
          progress := 100 }
        if env.hasSession then
          match env.copyExc with
          | some msg => ⟨[j0, j1] ++ snaps ++ [jF, jobError jF msg], true, some duration⟩
          | none => ⟨[j0, j1] ++ snaps ++ [jF], true, some duration⟩
        else
          ⟨[j0, j1] ++ snaps ++ [jF], true, some duration⟩

/-! ### Templates as Python dicts -/

inductive TVal where
  | vstr : String → TVal
  | vnum : ℚ → TVal
  | vbool : Bool → TVal
  | vlist : List TVal → TVal

abbrev TDict := List (String × TVal)

def alookup {α : Type} : List (String × α) → String → Option α
  | [], _ => none
  | (k, v) :: rest, key => if k = key then some v else alookup rest key

/-- Python `d[key] = v`: overwrite in place, or append in insertion order. -/
def aset {α : Type} : List (String × α) → String → α → List (String × α)
  | [], key, v => [(key, v)]
  | (k, w) :: rest, key, v =>
    if k = key then (key, v) :: rest else (k, w) :: aset rest key v

/-- One yt-dlp progress-hook invocation: a `downloading` dict (with
`total_bytes`/`total_bytes_estimate` collapsed to `total`, `None`/`0` both
falsy) or a `finished` dict. -/
inductive DlEvent where
  | downloading (total : Option ℚ) (downloaded : ℚ)
  | finishedHook

structure DlEnv where
  events : List DlEvent
  engineExc : Option String
  hasSession : Bool
  copyExc : Option String

/-- The hook's written progress (server.py lines 547-558 / app.py 180-197):
`prog = downloaded/total_bytes*100 if total_bytes else 0.0`, then
`round(prog, 2)` — no upper clamp, and 0.0 whenever the total is unknown. -/
def dlProgressValue (total : Option ℚ) (downloaded : ℚ) : ℚ :=
  let total_bytes := total.getD 0
  round2 (if total_bytes ≠ 0 then downloaded / total_bytes * 100 else 0)

def dlSnaps (j : JobRec) : List DlEvent → List JobRec
  | [] => []
  | .downloading total downloaded :: es =>
    let j' := { j with progress := dlProgressValue total downloaded }
    j' :: dlSnaps j' es
  | .finishedHook :: es =>
    let j' := { j with progress := 100 }
    j' :: dlSnaps j' es

/-- server.py `do_download` (lines 530-581): the session copy is *not*
guarded, so a copy exception reaches the handler's `except` and flips the
job to `error` (result left set). -/
def serverDoDownload (env : DlEnv) : List JobRec :=
  let j0 := create_job "download"
  let j1 := { j0 with status := "running" }
  let snaps := dlSnaps j1 env.events
  let jL := snaps.getLastD j1
  match env.engineExc with
  | some msg => [j0, j1] ++ snaps ++ [jobError jL msg]
  | none =>
    let jF := { jL with
      status := "finished"
      result := some "file"
      progress := 100 }
    if env.hasSession then
      match env.copyExc with
      | some msg => [j0, j1] ++ snaps ++ [jF, jobError jF msg]
      | none => [j0, j1] ++ snaps ++ [jF]
    else [j0, j1] ++ snaps ++ [jF]

/-- app.py `do_download` (lines 164-221): identical, except the session copy
is wrapped in its own `try/except: pass`, so a copy failure is swallowed and
the job still ends `finished`. -/
def appDoDownload (env : DlEnv) : List JobRec :=
  let j0 := create_job "download"
  let j1 := { j0 with status := "running" }
  let snaps := dlSnaps j1 env.events
  let jL := snaps.getLastD j1
  match env.engineExc with
  | some msg => [j0, j1] ++ snaps ++ [jobError jL msg]
  | none =>
    let jF := { jL with
      status := "finished"
      result := some "file"
      progress := 100 }
    [j0, j1] ++ snaps ++ [jF]

/-! ### The worker loop (server.py `job_worker`, lines 584-613 /
app.py `worker_loop`, lines 676-704) -/

/-- What one handler invocation does to its own job record: either it returns
normally having committed `final`, or an exception escapes it with the record
last committed as `leftover`. -/
inductive HandlerOutcome where
  | normal (final : JobRec)
  | throws (msg : String) (leftover : JobRec)

/-- One worker iteration on a dequeued id: look the job up (`continue` when
missing), dispatch by `kind` when recognized, otherwise record an
unknown-kind error; an exception escaping the handler is caught and recorded
as this job's `error`.  The worker itself never stops: the function is total
and every iteration yields the next store. -/
def workerStep (store : List (String × JobRec)) (jid : String)
    (recognized : String → Bool) (handler : JobRec → HandlerOutcome) :
    List (String × JobRec) :=
  match alookup store jid with
  | none => store
  | some j =>
    if recognized j.kind then
      match handler j with
      | .normal f => aset store jid f
      | .throws msg leftover => aset store jid (jobError leftover msg)
    else
      aset store jid (jobError j ("unknown job kind: " ++ j.kind))

/-- The kinds server.py's `job_worker` dispatches. -/
def serverKnownKind (k : String) : Bool :=
  k = "download" || k = "transcribe" || k = "clip" || k = "clip_template"

/-- The kinds app.py's `worker_loop` dispatches. -/
def appKnownKind (k : String) : Bool :=
  k = "download" || k = "transcribe" || k = "clip" || k = "template_clip" || k = "merge"

/-! ### Overlay auto-stacking (app.py `do_template_clip`, lines 444-487) -/

def PORTRAIT_H : ℤ := 1920
def SAFE_TOP : ℤ := 120
def SAFE_BOTTOM : ℤ := 120
def SAFE_CENTER : ℤ := PORTRAIT_H / 2

structure TextSpec where
  y : String
  fontsize : ℚ

/-- `int(txt.get("fontsize", 50) * 1.4)` — `int()` truncates toward zero,
which is `⌊·⌋` on the nonnegative font sizes that occur. -/
def estHeight (fontsize : ℚ) : ℤ := ⌊fontsize * (7 / 5)⌋

inductive Anchor where
  | top
  | center
  | bottom
deriving DecidableEq, Repr

/-- The anchor branch of the stacking code: `pos = txt.get("y", "").lower()`,
then `"top" in pos` / `"mid" in pos or "center" in pos` / `"bottom" in pos` /
fallback-bottom, in that order. -/
def autoAnchor (yField : String) : Anchor :=
  let pos := pyLower yField
  if pyContains pos "top" then .top
  else if pyContains pos "mid" || pyContains pos "center" then .center
  else if pyContains pos "bottom" then .bottom
  else .bottom

structure StackState where
  top_stack : ℤ
  center_stack : ℤ
  bottom_stack : ℤ

/-- One overlay placed through the stacking branches: computed `y` plus the
advanced stack offsets. -/
def placeText (st : StackState) (txt : TextSpec) : ℤ × StackState :=
  let estimated_h := estHeight txt.fontsize
  match autoAnchor txt.y with
  | .top =>
    (SAFE_TOP + st.top_stack,
      { st with top_stack := st.top_stack + estimated_h + 40 })
  | .center =>
    (SAFE_CENTER + st.center_stack,
      { st with center_stack := st.center_stack + estimated_h + 40 })
  | .bottom =>
    (PORTRAIT_H - SAFE_BOTTOM - st.bottom_stack - estimated_h,
      { st with bottom_stack := st.bottom_stack + estimated_h + 40 })

def layoutYsAux (st : StackState) : List TextSpec → List ℤ
  | [] => []
  | t :: ts =>
    let p := placeText st t
    p.1 :: layoutYsAux p.2 ts

/-- The `y` offsets assigned to successive overlays (stacks start at 0). -/
def layoutYs (txts : List TextSpec) : List ℤ := layoutYsAux ⟨0, 0, 0⟩ txts

/-- Modelled from the spec: the anchor rule exactly as the claim states it —
case-insensitive substring match against top / center / bottom only, with
every unrecognized value defaulting to bottom.  Kept for comparison with
`autoAnchor`, the rule the code implements. -/
def specAnchor (yField : String) : Anchor :=
  let pos := pyLower yField
  if pyContains pos "top" then .top
  else if pyContains pos "center" then .center
  else if pyContains pos "bottom" then .bottom
  else .bottom

/-! ### Session cleanup (app.py lines 652-671 / video_tools.py lines 157-193) -/

/-- One session directory: whether `sessions/{id}` exists and the files in
it.  `os.remove` is modelled as succeeding (its exceptions are swallowed by
the code anyway); `os.rmdir` fires exactly when the directory emptied. -/
structure SessionDir where
  present : Bool
  files : List String

/-- app.py `cleanup_session_immediate`: missing folder → `False`; otherwise
`.mp4` files are removed when `delete_clips or delete_video`, every other
file is removed unconditionally, the folder is removed if now empty, and the
function returns `True`. -/
def cleanup_session_immediate (fs : SessionDir)
    (delete_clips delete_video : Bool) : Bool × SessionDir :=
  if fs.present = false then (false, fs)
  else
    let files' := fs.files.filter
      (fun fname => pyEndsWith fname ".mp4" && !(delete_clips || delete_video))
    (true, ⟨!files'.isEmpty, files'⟩)

/-- video_tools.py `cleanup_session`: same, with an explicit
`.txt`/`.vtt`/`.srt` branch that also just removes the file. -/
def cleanup_session (fs : SessionDir)
    (delete_clips delete_video : Bool) : Bool × SessionDir :=
  if fs.present = false then (false, fs)
  else
    let keep := fun fname =>
      if pyEndsWith fname ".mp4" then !(delete_clips || delete_video)
      else if pyEndsWith fname ".txt" || pyEndsWith fname ".vtt" ||
          pyEndsWith fname ".srt" then false
      else false
    let files' := fs.files.filter keep
    (true, ⟨!files'.isEmpty, files'⟩)

/-! ### Template store and template-clip submission (server.py lines 440-489,
`save_template` lines 105-110) -/

structure Overrides where
  custom_overlays : Option TVal
  custom_start : Option TVal
  custom_duration : Option TVal
  custom_output_name : Option TVal
  custom_resolution : Option TVal
  custom_flip : Option TVal

def applyOverride (t : TDict) (key : String) : Option TVal → TDict
  | none => t
  | some v => aset t key v

/-- The override block of `api_clip_with_template`: each provided custom
field is written onto the handler's private copy of the template. -/
def applyOverrides (t : TDict) (ov : Overrides) : TDict :=
  applyOverride
    (applyOverride
      (applyOverride
        (applyOverride
          (applyOverride
            (applyOverride t "overlays" ov.custom_overlays)
            "start" ov.custom_start)
          "duration" ov.custom_duration)
        "output_name" ov.custom_output_name)
      "resolution" ov.custom_resolution)
    "flip" ov.custom_flip

/-- The in-memory state the submission path touches: the `templates` mapping
and, for each created job, the template value captured in its `meta`. -/
structure ServerState where
  templates : List (String × TDict)
  jobs : List (String × TDict)

/-- server.py `api_clip_with_template`: unknown template name → 404, no job;
otherwise `template = templates[template_name].copy()` (a private copy —
the stored entry is never written), the custom overrides are applied to the
copy, and a job is created whose meta holds that copy. -/
def api_clip_with_template (s : ServerState) (newId template_name : String)
    (ov : Overrides) : ServerState × Option String :=
  match alookup s.templates template_name with
  | none => (s, none)
  | some t =>
    let template := applyOverrides t ov
    ({ s with jobs := s.jobs ++ [(newId, template)] }, some newId)

/-- server.py `save_template`: upsert — the name is bound to the new
template value (jobs already created are untouched). -/
def save_template (s : ServerState) (name : String) (data : TDict) : ServerState :=
  { s with templates := aset s.templates name data }

/-- The terminal-field discipline the code actually maintains: nothing set
while `queued`/`running`; `finished` has a result and no error; `error` has
an error message — and, unlike the spec's stronger claim, an `error` record
may *also* carry a result (exactly when the failure struck after the result
write). -/
def terminalFieldInvB (s : JobRec) : Bool :=
  (!(s.status == "queued" || s.status == "running") ||
      (s.result.isNone && s.error.isNone)) &&
  (!(s.status == "finished") || (s.result.isSome && s.error.isNone)) &&
  (!(s.status == "error") || s.error.isSome)

/-! ## Helper lemmas -/

theorem round2_mono {a b : ℚ} (h : a ≤ b) : round2 a ≤ round2 b := by
  unfold round2
  have hf : (⌊a * 100 + 1 / 2⌋ : ℤ) ≤ ⌊b * 100 + 1 / 2⌋ := by
    apply Int.floor_mono
    have : a * 100 ≤ b * 100 := by nlinarith
    linarith
  gcongr

theorem round2_of_int (n : ℤ) : round2 (n : ℚ) = n := by
  unfold round2
  have heq : ((n : ℚ) * 100 + 1 / 2) = ((n * 100 : ℤ) : ℚ) + 1 / 2 := by push_cast; ring
  rw [heq]
  have hfl : ⌊((n * 100 : ℤ) : ℚ) + 1 / 2⌋ = n * 100 := by
    rw [Int.floor_eq_iff]
    constructor
    · push_cast; linarith
    · push_cast; linarith
  rw [hfl]
  push_cast
  field_simp

theorem clipProgressValue_le_100 (d t : ℚ) : clipProgressValue d t ≤ 100 := by
  unfold clipProgressValue
  have h1 : min 100 (t / d * 100) ≤ 100 := min_le_left _ _
  have := round2_mono h1
  calc round2 (min 100 (t / d * 100)) ≤ round2 100 := this
    _ = round2 ((100 : ℤ) : ℚ) := by norm_num
    _ = 100 := by rw [round2_of_int]; norm_num

theorem clipProgressValue_mono {d t t' : ℚ} (hd : 0 < d) (h : t ≤ t') :
    clipProgressValue d t ≤ clipProgressValue d t' := by
  unfold clipProgressValue
  apply round2_mono
  apply min_le_min le_rfl
  have hdd : t / d ≤ t' / d := by gcongr
  nlinarith

theorem clipProgressSnaps_core :
    ∀ (ts : List ℚ) (j : JobRec) (d : ℚ) (s : JobRec),
      s ∈ clipProgressSnaps j d ts →
      s.kind = j.kind ∧ s.status = j.status ∧ s.result = j.result ∧ s.error = j.error := by
  intro ts
  induction ts with
  | nil =>
    intro j d s hs
    simp [clipProgressSnaps] at hs
  | cons t ts ih =>
    intro j d s hs
    simp only [clipProgressSnaps, List.mem_cons] at hs
    rcases hs with rfl | hs
    · exact ⟨rfl, rfl, rfl, rfl⟩
    · exact ih { j with progress := clipProgressValue d t } d s hs

theorem clipProgressSnaps_progressMap :
    ∀ (ts : List ℚ) (j : JobRec) (d : ℚ),
      (clipProgressSnaps j d ts).map (fun s => s.progress) =
        ts.map (clipProgressValue d) := by
  intro ts
  induction ts with
  | nil => intro j d; rfl
  | cons t ts ih =>
    intro j d
    simp only [clipProgressSnaps, List.map_cons, List.map]
    exact congrArg _ (ih _ d)

theorem getLastD_mem_or {α : Type} (l : List α) (d : α) :
    l.getLastD d = d ∨ l.getLastD d ∈ l :=
  List.mem_cons.mp (List.getLastD_mem_cons l d)

theorem clipProgressSnaps_last_core (ts : List ℚ) (j : JobRec) (d : ℚ) :
    ((clipProgressSnaps j d ts).getLastD j).kind = j.kind ∧
    ((clipProgressSnaps j d ts).getLastD j).status = j.status ∧
    ((clipProgressSnaps j d ts).getLastD j).result = j.result ∧
    ((clipProgressSnaps j d ts).getLastD j).error = j.error := by
  rcases getLastD_mem_or (clipProgressSnaps j d ts) j with h | h
  · rw [h]
    exact ⟨rfl, rfl, rfl, rfl⟩
  · exact clipProgressSnaps_core ts j d _ h

theorem dlSnaps_core :
    ∀ (es : List DlEvent) (j : JobRec) (s : JobRec),
      s ∈ dlSnaps j es →
      s.kind = j.kind ∧ s.status = j.status ∧ s.result = j.result ∧ s.error = j.error := by
  intro es
  induction es with
  | nil =>
    intro j s hs
    simp [dlSnaps] at hs
  | cons e es ih =>
    intro j s hs
    cases e with
    | downloading total downloaded =>
      simp only [dlSnaps, List.mem_cons] at hs
      rcases hs with rfl | hs
      · exact ⟨rfl, rfl, rfl, rfl⟩
      · exact ih { j with progress := dlProgressValue total downloaded } s hs
    | finishedHook =>
      simp only [dlSnaps, List.mem_cons] at hs
      rcases hs with rfl | hs
      · exact ⟨rfl, rfl, rfl, rfl⟩
      · exact ih { j with progress := 100 } s hs

theorem dlSnaps_last_core (es : List DlEvent) (j : JobRec) :
    ((dlSnaps j es).getLastD j).kind = j.kind ∧
    ((dlSnaps j es).getLastD j).status = j.status ∧
    ((dlSnaps j es).getLastD j).result = j.result ∧
    ((dlSnaps j es).getLastD j).error = j.error := by
  rcases getLastD_mem_or (dlSnaps j es) j with h | h
  · rw [h]
    exact ⟨rfl, rfl, rfl, rfl⟩
  · exact dlSnaps_core es j _ h

theorem alookup_aset_self {α : Type} :
    ∀ (l : List (String × α)) (k : String) (v : α),
      alookup (aset l k v) k = some v := by
  intro l
  induction l with
  | nil => intro k v; simp [aset, alookup]
  | cons p rest ih =>
    intro k v
    obtain ⟨k', w⟩ := p
    by_cases h : k' = k
    · simp [aset, h, alookup]
    · simp [aset, h, alookup, ih]

theorem alookup_aset_ne {α : Type} :
    ∀ (l : List (String × α)) (k k' : String) (v : α), k' ≠ k →
      alookup (aset l k v) k' = alookup l k' := by
  intro l
  induction l with
  | nil =>
    intro k k' v h
    simp [aset, alookup, Ne.symm h]
  | cons p rest ih =>
    intro k k' v h
    obtain ⟨k0, w⟩ := p
    by_cases h0 : k0 = k
    · subst h0
      simp [aset, alookup, Ne.symm h]
    · simp only [aset, if_neg h0, alookup]
      by_cases h1 : k0 = k'
      · simp [h1]
      · simp [h1, ih _ _ _ h]

theorem ffmpeg_time_eval : ffmpeg_time_to_secs "00:01:05.50" = 131 / 2 := by
  have h1 : splitCh ':' "00:01:05.50".data =
      [['0', '0'], ['0', '1'], ['0', '5', '.', '5', '0']] := by decide
  have h2 : parseDigits ['0', '0'] = some 0 := by decide
  have h3 : parseDigits ['0', '1'] = some 1 := by decide
  have h4 : splitCh '.' ['0', '5', '.', '5', '0'] = [['0', '5'], ['5', '0']] := by decide
  have h5 : parseDigits ['0', '5'] = some 5 := by decide
  have h6 : parseDigits ['5', '0'] = some 50 := by decide
  unfold ffmpeg_time_to_secs
  rw [h1]
  simp only [List.getElem?_cons_zero, List.getElem?_cons_succ]
  unfold pyIntDigits pyFloatDigits
  rw [h2, h3, h4]
  simp only [h5, h6, Option.map_some, List.length_cons, List.length_nil]
  norm_num

theorem searchTime_eval :
    searchTimeMarker ("frame=10 time=00:01:05.50 bitrate=...".data) =
      some ("00:01:05.50".data) := by decide

theorem clipline_eval :
    clipProgressOfLine "frame=10 time=00:01:05.50 bitrate=..." 130 = some (2519 / 50) := by
  unfold clipProgressOfLine
  have hc : pyContains "frame=10 time=00:01:05.50 bitrate=..." "time=" = true := by decide
  rw [hc, if_pos rfl, searchTime_eval]
  show some (clipProgressValue 130 (ffmpeg_time_to_secs "00:01:05.50")) = some (2519 / 50)
  rw [ffmpeg_time_eval]
  unfold clipProgressValue round2
  rw [min_eq_right (by norm_num)]
  norm_num

/-- C4: counterexample.  For the line `frame=10 time=00:01:05.50 bitrate=...`
with `totalDurationSeconds = 130` the computation does *not* yield 0.5: the
time marker converts to 65.5 s and the fraction is 65.5/130 = 131/260 ≈
0.5038 (progress write 50.38, not 50). -/
theorem clip_time_fraction_counterexample :
    min (1 : ℚ) (ffmpeg_time_to_secs "00:01:05.50" / 130) ≠ 1 / 2 ∧
    clipProgressOfLine "frame=10 time=00:01:05.50 bitrate=..." 130 ≠ some 50 := by
  constructor
  · rw [ffmpeg_time_eval, min_eq_right (by norm_num)]
    norm_num
  · rw [clipline_eval]
    intro hcontra
    have := Option.some.inj hcontra
    norm_num at this

/-- C4: amended.  The extraction and conversion work exactly as described
(regex group `00:01:05.50`, `h*3600+m*60+s = 65.5`), but the clamped
fraction is exactly 131/260 (two-decimal progress 50.38), not 0.5. -/
theorem clip_time_fraction_exact :
    searchTimeMarker ("frame=10 time=00:01:05.50 bitrate=...".data) =
      some ("00:01:05.50".data) ∧
    ffmpeg_time_to_secs "00:01:05.50" = 131 / 2 ∧
    min (1 : ℚ) (ffmpeg_time_to_secs "00:01:05.50" / 130) = 131 / 260 ∧
    clipProgressOfLine "frame=10 time=00:01:05.50 bitrate=..." 130 = some (2519 / 50) := by
  refine ⟨searchTime_eval, ffmpeg_time_eval, ?_, clipline_eval⟩
  rw [ffmpeg_time_eval, min_eq_right (by norm_num)]
  norm_num

/-- C8: with both delete flags true, cleanup of an existing session directory
removes every file and then the now-empty directory and returns `True`
(both the FastAPI `cleanup_session_immediate` and the video_tools
`cleanup_session`); for a non-existent session directory both return `False`
without touching anything (and cannot raise: they are total functions). -/
theorem cleanup_full_flags :
    (∀ files : List String,
        cleanup_session_immediate ⟨true, files⟩ true true = (true, ⟨false, []⟩)) ∧
    (∀ files : List String,
        cleanup_session ⟨true, files⟩ true true = (true, ⟨false, []⟩)) ∧
    (∀ files : List String,
        cleanup_session_immediate ⟨false, files⟩ true true = (false, ⟨false, files⟩)) ∧
    (∀ files : List String,
        cleanup_session ⟨false, files⟩ true true = (false, ⟨false, files⟩)) := by
  refine ⟨fun files => ?_, fun files => ?_, fun files => ?_, fun files => ?_⟩
  · simp [cleanup_session_immediate]
  · simp [cleanup_session]
  · simp [cleanup_session_immediate]
  · simp [cleanup_session]

/-- C10: with `delete_clips = delete_video = False`, cleanup of an existing
session directory still deletes every file not ending in `.mp4` and returns
`True`; in general a file ending in `.mp4` survives iff
`not (delete_clips or delete_video)` — the two flags are only ever used
through their disjunction, never distinguished per file. -/
theorem cleanup_flag_per_file :
    (∀ files : List String,
        cleanup_session ⟨true, files⟩ false false =
          (true, ⟨!(files.filter (fun f => pyEndsWith f ".mp4")).isEmpty,
                  files.filter (fun f => pyEndsWith f ".mp4")⟩)) ∧
    (∀ (files : List String) (dc dv : Bool),
        (cleanup_session ⟨true, files⟩ dc dv).1 = true ∧
        (cleanup_session ⟨true, files⟩ dc dv).2.files =
          files.filter (fun f => pyEndsWith f ".mp4" && !(dc || dv))) ∧
    (∀ (files : List String) (dc dv : Bool),
        (cleanup_session_immediate ⟨true, files⟩ dc dv).2.files =
          files.filter (fun f => pyEndsWith f ".mp4" && !(dc || dv))) := by
  have hkeep : ∀ (files : List String) (dc dv : Bool),
      files.filter (fun fname =>
        if pyEndsWith fname ".mp4" then !(dc || dv)
        else if pyEndsWith fname ".txt" || pyEndsWith fname ".vtt" ||
            pyEndsWith fname ".srt" then false
        else false) =
      files.filter (fun f => pyEndsWith f ".mp4" && !(dc || dv)) := by
    intro files dc dv
    apply List.filter_congr
    intro f _
    by_cases h : pyEndsWith f ".mp4"
    · simp [h]
    · simp [h]
  have hmain : ∀ (files : List String) (dc dv : Bool),
      cleanup_session ⟨true, files⟩ dc dv =
        (true, ⟨!(files.filter (fun f => pyEndsWith f ".mp4" && !(dc || dv))).isEmpty,
                files.filter (fun f => pyEndsWith f ".mp4" && !(dc || dv))⟩) := by
    intro files dc dv
    unfold cleanup_session
    split
    · next h => simp at h
    · dsimp only
      rw [hkeep]
  refine ⟨fun files => ?_, fun files dc dv => ⟨?_, ?_⟩, fun files dc dv => ?_⟩
  · rw [hmain]
    have hfn : (fun f => pyEndsWith f ".mp4" && !(false || false)) =
        (fun f => pyEndsWith f ".mp4") := by
      funext f
      simp
    rw [hfn]
  · rw [hmain]
  · rw [hmain]
  · unfold cleanup_session_immediate
    split
    · next h => simp at h
    · rfl

/-- C9: `api_clip_with_template` takes a private copy of the stored template
before applying the per-request overrides: the submission never changes the
`templates` store, the job captures `applyOverrides` of the stored value,
and a later `save_template` upsert rebinds only the `templates` mapping —
the template already captured in any previously created job is untouched. -/
theorem template_private_copy :
    (∀ (s : ServerState) (newId tn : String) (ov : Overrides),
        ((api_clip_with_template s newId tn ov).1).templates = s.templates) ∧
    (∀ (tn : String) (t : TDict) (rest : List (String × TDict))
        (jobsL : List (String × TDict)) (newId : String) (ov : Overrides),
        ((api_clip_with_template ⟨(tn, t) :: rest, jobsL⟩ newId tn ov).1).jobs =
          jobsL ++ [(newId, applyOverrides t ov)]) ∧
    (∀ (s : ServerState) (name : String) (data : TDict),
        (save_template s name data).jobs = s.jobs) := by
  refine ⟨fun s newId tn ov => ?_, fun tn t rest jobsL newId ov => ?_,
    fun s name data => rfl⟩
  · unfold api_clip_with_template
    rcases h : alookup s.templates tn with _ | t
    · rfl
    · rfl
  · unfold api_clip_with_template
    simp [alookup]

theorem layoutYsAux_bottom50 (n : ℕ) :
    ∀ st : StackState,
      layoutYsAux st (List.replicate n ⟨"bottom", 50⟩) =
        (List.range n).map (fun k : ℕ => 1800 - st.bottom_stack - 110 * (k : ℤ) - 70) := by
  induction n with
  | zero => intro st; simp [layoutYsAux]
  | succ n ih =>
    intro st
    rw [List.replicate_succ]
    have ha : autoAnchor "bottom" = Anchor.bottom := by decide
    have hp : placeText st ⟨"bottom", 50⟩ =
        (1800 - st.bottom_stack - 70,
         { st with bottom_stack := st.bottom_stack + 110 }) := by
      simp only [placeText, ha]
      norm_num [estHeight, PORTRAIT_H, SAFE_BOTTOM, Prod.ext_iff, StackState.mk.injEq]
      omega
    simp only [layoutYsAux, hp]
    rw [ih]
    rw [List.range_succ_eq_map]
    simp only [List.map_cons, List.map_map]
    congr 1
    · norm_num
    · apply List.map_congr_left
      intro k _
      simp only [Function.comp]
      push_cast
      ring

/-- C7: counterexample.  The claim's anchor rule (substring match on
top/center/bottom only, anything else → bottom) disagrees with the code: a
position field `"mid"` is anchored *center* by the code, not bottom; and the
stack advance is `int(fontSize*1.4) + 40` (truncated), so a fontSize-49
overlay advances the bottom stack by 108, not the claim's `49*1.4+40 = 108.6`. -/
theorem overlay_anchor_counterexample :
    autoAnchor "mid" = Anchor.center ∧
    specAnchor "mid" = Anchor.bottom ∧
    Anchor.center ≠ Anchor.bottom ∧
    (placeText ⟨0, 0, 0⟩ ⟨"bottom", 49⟩).2.bottom_stack = 108 ∧
    (49 : ℚ) * (7 / 5) + 40 ≠ (108 : ℚ) := by
  refine ⟨by decide, by decide, by decide, ?_, by norm_num⟩
  have ha : autoAnchor "bottom" = Anchor.bottom := by decide
  simp only [placeText, ha]
  norm_num [estHeight]

/-- C7: amended.  Auto-stacking as the code implements it: the anchor is a
case-insensitive substring match trying `top`, then `mid` or `center` (both
center), then `bottom`, with unrecognized values falling back to bottom;
the estimated height is `int(fontSize*1.4)` (truncated toward zero); a
bottom-anchored overlay is placed at `PORTRAIT_H - SAFE_BOTTOM -
bottom_stack - estimatedHeight` and advances its stack by
`estimatedHeight + 40`.  Consequently three bottom-anchored fontSize-50
overlays get y = 1730, 1620, 1510: strictly upward from the bottom margin,
spaced exactly 110 apart. -/
theorem overlay_stacking_layout :
    (autoAnchor "Top" = Anchor.top ∧
      autoAnchor "CENTER" = Anchor.center ∧
      autoAnchor "mid" = Anchor.center ∧
      autoAnchor "BoTtOm" = Anchor.bottom ∧
      autoAnchor "floating" = Anchor.bottom) ∧
    (∀ (st : StackState) (fs : ℚ),
        (placeText st ⟨"bottom", fs⟩).1 =
          PORTRAIT_H - SAFE_BOTTOM - st.bottom_stack - estHeight fs ∧
        (placeText st ⟨"bottom", fs⟩).2.bottom_stack =
          st.bottom_stack + estHeight fs + 40) ∧
    (∀ n : ℕ,
        layoutYs (List.replicate n ⟨"bottom", 50⟩) =
          (List.range n).map (fun k : ℕ => 1730 - 110 * (k : ℤ))) ∧
    layoutYs (List.replicate 3 ⟨"bottom", 50⟩) = [1730, 1620, 1510] ∧
    List.Chain' (fun a b => b < a ∧ a - b = 110)
      (layoutYs (List.replicate 3 ⟨"bottom", 50⟩)) := by
  have ha : autoAnchor "bottom" = Anchor.bottom := by decide
  have hgen : ∀ n : ℕ,
      layoutYs (List.replicate n ⟨"bottom", 50⟩) =
        (List.range n).map (fun k : ℕ => 1730 - 110 * (k : ℤ)) := by
    intro n
    unfold layoutYs
    rw [layoutYsAux_bottom50]
    apply List.map_congr_left
    intro k _
    ring
  have h3 : layoutYs (List.replicate 3 ⟨"bottom", 50⟩) = [1730, 1620, 1510] := by
    rw [hgen 3]
    norm_num [List.range_succ]
  refine ⟨⟨by decide, by decide, by decide, by decide, by decide⟩,
    fun st fs => ?_, hgen, h3, ?_⟩
  · simp [placeText, ha]
  · rw [h3]
    norm_num [List.chain'_cons, List.chain'_singleton]

/-- C6: one worker iteration on a dequeued id whose job exists either runs
the matching handler (its committed final state stands), or — for an
unrecognized kind — records an `unknown job kind` error; an exception
escaping the handler is caught and recorded as that job's `error` status
with the exception's message; and in every case no other job's record is
touched.  `workerStep` is a total function, so no handler outcome can
terminate the loop. -/
theorem worker_dispatch_isolated
    (store : List (String × JobRec)) (jid : String)
    (recognized : String → Bool) (handler : JobRec → HandlerOutcome)
    (j : JobRec) (h : alookup store jid = some j) :
    (recognized j.kind = false →
        alookup (workerStep store jid recognized handler) jid =
          some (jobError j ("unknown job kind: " ++ j.kind))) ∧
    (∀ f, recognized j.kind = true → handler j = .normal f →
        alookup (workerStep store jid recognized handler) jid = some f) ∧
    (∀ msg leftover, recognized j.kind = true → handler j = .throws msg leftover →
        alookup (workerStep store jid recognized handler) jid =
          some (jobError leftover msg)) ∧
    (∀ other, other ≠ jid →
        alookup (workerStep store jid recognized handler) other =
          alookup store other) := by
  refine ⟨?_, ?_, ?_, ?_⟩
  · intro hr
    unfold workerStep
    rw [h]
    dsimp only
    rw [hr]
    simp [alookup_aset_self]
  · intro f hr hf
    unfold workerStep
    rw [h]
    dsimp only
    rw [hr, hf]
    simp [alookup_aset_self]
  · intro msg leftover hr hf
    unfold workerStep
    rw [h]
    dsimp only
    rw [hr, hf]
    simp [alookup_aset_self]
  · intro other ho
    unfold workerStep
    rw [h]
    dsimp only
    by_cases hr : recognized j.kind
    · rcases hf : handler j with f | ⟨msg, leftover⟩ <;>
        simp [hr, hf, alookup_aset_ne _ _ _ _ ho]
    · simp [hr, alookup_aset_ne _ _ _ _ ho]

/-- Witness for the C6 theorem: a store holding one `clip` job; a handler
that raises is caught and recorded, an unrecognized kind is recorded, and a
sibling job is untouched (using server.py's dispatch list). -/
theorem worker_dispatch_isolated_witness :
    alookup (workerStep [("a", create_job "clip"), ("b", create_job "merge")]
        "a" serverKnownKind (fun j => HandlerOutcome.throws "boom" j)) "a" =
      some (jobError (create_job "clip") "boom") ∧
    alookup (workerStep [("a", create_job "clip"), ("b", create_job "merge")]
        "a" serverKnownKind (fun j => HandlerOutcome.throws "boom" j)) "b" =
      some (create_job "merge") ∧
    alookup (workerStep [("b", create_job "merge")] "b" serverKnownKind
        (fun j => HandlerOutcome.normal j)) "b" =
      some (jobError (create_job "merge") "unknown job kind: merge") := by
  have h1 := worker_dispatch_isolated
    [("a", create_job "clip"), ("b", create_job "merge")] "a" serverKnownKind
    (fun j => HandlerOutcome.throws "boom" j) (create_job "clip") (by simp [alookup])
  have h2 := worker_dispatch_isolated [("b", create_job "merge")] "b" serverKnownKind
    (fun j => HandlerOutcome.normal j) (create_job "merge") (by simp [alookup])
  refine ⟨h1.2.2.1 "boom" (create_job "clip") (by decide) rfl, ?_, ?_⟩
  · rw [h1.2.2.2 "b" (by decide)]
    simp [alookup]
  · exact h2.1 (by decide)

theorem serverDoClip_trace_cases (env : ClipEnv) (meta : ClipMeta) (s : JobRec)
    (hs : s ∈ (serverDoClip env meta).trace) :
    s = create_job "clip" ∨
    (s.status = "running" ∧ s.result = none ∧ s.error = none) ∨
    (∃ j msg, s = jobError j msg) ∨
    (s.status = "finished" ∧ s.result = some "clip_file" ∧ s.error = none ∧
      s.progress = 100) := by
  unfold serverDoClip at hs
  by_cases h1 : env.inputExists = false
  · rw [if_pos h1] at hs
    simp only [List.mem_cons, List.not_mem_nil, or_false] at hs
    rcases hs with rfl | rfl | rfl
    · exact Or.inl rfl
    · exact Or.inr (Or.inl ⟨rfl, rfl, rfl⟩)
    · exact Or.inr (Or.inr (Or.inl ⟨_, _, rfl⟩))
  · rw [if_neg h1] at hs
    by_cases h2 : meta.«end» - meta.start ≤ 0
    · rw [if_pos h2] at hs
      simp only [List.mem_cons, List.not_mem_nil, or_false] at hs
      rcases hs with rfl | rfl | rfl
      · exact Or.inl rfl
      · exact Or.inr (Or.inl ⟨rfl, rfl, rfl⟩)
      · exact Or.inr (Or.inr (Or.inl ⟨_, _, rfl⟩))
    · rw [if_neg h2] at hs
      by_cases h3 : env.exitCode ≠ 0
      · rw [if_pos h3] at hs
        simp only [List.append_assoc, List.mem_append, List.mem_cons,
          List.not_mem_nil, or_false] at hs
        rcases hs with (rfl | rfl) | hsnap | rfl
        · exact Or.inl rfl
        · exact Or.inr (Or.inl ⟨rfl, rfl, rfl⟩)
        · have hc := clipProgressSnaps_core env.times _ (meta.«end» - meta.start) s hsnap
          exact Or.inr (Or.inl ⟨hc.2.1, hc.2.2.1, hc.2.2.2⟩)
        · exact Or.inr (Or.inr (Or.inl ⟨_, _, rfl⟩))
      · rw [if_neg h3] at hs
        by_cases h4 : env.hasSession
        · rw [if_pos h4] at hs
          rcases hc : env.copyExc with _ | msg
          · rw [hc] at hs
            simp only [List.append_assoc, List.mem_append, List.mem_cons,
              List.not_mem_nil, or_false] at hs
            rcases hs with (rfl | rfl) | hsnap | rfl
            · exact Or.inl rfl
            · exact Or.inr (Or.inl ⟨rfl, rfl, rfl⟩)
            · have hcc := clipProgressSnaps_core env.times _ (meta.«end» - meta.start) s hsnap
              exact Or.inr (Or.inl ⟨hcc.2.1, hcc.2.2.1, hcc.2.2.2⟩)
            · have hl := clipProgressSnaps_last_core env.times
                { create_job "clip" with status := "running" } (meta.«end» - meta.start)
              exact Or.inr (Or.inr (Or.inr ⟨rfl, rfl, hl.2.2.2, rfl⟩))
          · rw [hc] at hs
            simp only [List.append_assoc, List.mem_append, List.mem_cons,
              List.not_mem_nil, or_false] at hs
            rcases hs with (rfl | rfl) | hsnap | (rfl | rfl)
            · exact Or.inl rfl
            · exact Or.inr (Or.inl ⟨rfl, rfl, rfl⟩)
            · have hcc := clipProgressSnaps_core env.times _ (meta.«end» - meta.start) s hsnap
              exact Or.inr (Or.inl ⟨hcc.2.1, hcc.2.2.1, hcc.2.2.2⟩)
            · have hl := clipProgressSnaps_last_core env.times
                { create_job "clip" with status := "running" } (meta.«end» - meta.start)
              exact Or.inr (Or.inr (Or.inr ⟨rfl, rfl, hl.2.2.2, rfl⟩))
            · exact Or.inr (Or.inr (Or.inl ⟨_, _, rfl⟩))
        · rw [if_neg h4] at hs
          simp only [List.append_assoc, List.mem_append, List.mem_cons,
            List.not_mem_nil, or_false] at hs
          rcases hs with (rfl | rfl) | hsnap | rfl
          · exact Or.inl rfl
          · exact Or.inr (Or.inl ⟨rfl, rfl, rfl⟩)
          · have hcc := clipProgressSnaps_core env.times _ (meta.«end» - meta.start) s hsnap
            exact Or.inr (Or.inl ⟨hcc.2.1, hcc.2.2.1, hcc.2.2.2⟩)
          · have hl := clipProgressSnaps_last_core env.times
              { create_job "clip" with status := "running" } (meta.«end» - meta.start)
            exact Or.inr (Or.inr (Or.inr ⟨rfl, rfl, hl.2.2.2, rfl⟩))

theorem serverDoDownload_trace_cases (env : DlEnv) (s : JobRec)
    (hs : s ∈ serverDoDownload env) :
    s = create_job "download" ∨
    (s.status = "running" ∧ s.result = none ∧ s.error = none) ∨
    (∃ j msg, s = jobError j msg) ∨
    (s.status = "finished" ∧ s.result = some "file" ∧ s.error = none ∧
      s.progress = 100) := by
  unfold serverDoDownload at hs
  rcases he : env.engineExc with _ | msg
  · rw [he] at hs
    dsimp only at hs
    by_cases h4 : env.hasSession
    · rw [if_pos h4] at hs
      rcases hc : env.copyExc with _ | msg
      · rw [hc] at hs
        simp only [List.append_assoc, List.mem_append, List.mem_cons,
          List.not_mem_nil, or_false] at hs
        rcases hs with (rfl | rfl) | hsnap | rfl
        · exact Or.inl rfl
        · exact Or.inr (Or.inl ⟨rfl, rfl, rfl⟩)
        · have hcc := dlSnaps_core env.events _ s hsnap
          exact Or.inr (Or.inl ⟨hcc.2.1, hcc.2.2.1, hcc.2.2.2⟩)
        · have hl := dlSnaps_last_core env.events
            { create_job "download" with status := "running" }
          exact Or.inr (Or.inr (Or.inr ⟨rfl, rfl, hl.2.2.2, rfl⟩))
      · rw [hc] at hs
        simp only [List.append_assoc, List.mem_append, List.mem_cons,
          List.not_mem_nil, or_false] at hs
        rcases hs with (rfl | rfl) | hsnap | (rfl | rfl)
        · exact Or.inl rfl
        · exact Or.inr (Or.inl ⟨rfl, rfl, rfl⟩)
        · have hcc := dlSnaps_core env.events _ s hsnap
          exact Or.inr (Or.inl ⟨hcc.2.1, hcc.2.2.1, hcc.2.2.2⟩)
        · have hl := dlSnaps_last_core env.events
            { create_job "download" with status := "running" }
          exact Or.inr (Or.inr (Or.inr ⟨rfl, rfl, hl.2.2.2, rfl⟩))
        · exact Or.inr (Or.inr (Or.inl ⟨_, _, rfl⟩))
    · rw [if_neg h4] at hs
      simp only [List.append_assoc, List.mem_append, List.mem_cons,
        List.not_mem_nil, or_false] at hs
      rcases hs with (rfl | rfl) | hsnap | rfl
      · exact Or.inl rfl
      · exact Or.inr (Or.inl ⟨rfl, rfl, rfl⟩)
      · have hcc := dlSnaps_core env.events _ s hsnap
        exact Or.inr (Or.inl ⟨hcc.2.1, hcc.2.2.1, hcc.2.2.2⟩)
      · have hl := dlSnaps_last_core env.events
          { create_job "download" with status := "running" }
        exact Or.inr (Or.inr (Or.inr ⟨rfl, rfl, hl.2.2.2, rfl⟩))
  · rw [he] at hs
    dsimp only at hs
    simp only [List.append_assoc, List.mem_append, List.mem_cons,
      List.not_mem_nil, or_false] at hs
    rcases hs with (rfl | rfl) | hsnap | rfl
    · exact Or.inl rfl
    · exact Or.inr (Or.inl ⟨rfl, rfl, rfl⟩)
    · have hcc := dlSnaps_core env.events _ s hsnap
      exact Or.inr (Or.inl ⟨hcc.2.1, hcc.2.2.1, hcc.2.2.2⟩)
    · exact Or.inr (Or.inr (Or.inl ⟨_, _, rfl⟩))

theorem appDoDownload_trace_cases (env : DlEnv) (s : JobRec)
    (hs : s ∈ appDoDownload env) :
    s = create_job "download" ∨
    (s.status = "running" ∧ s.result = none ∧ s.error = none) ∨
    (∃ j msg, s = jobError j msg) ∨
    (s.status = "finished" ∧ s.result = some "file" ∧ s.error = none ∧
      s.progress = 100) := by
  unfold appDoDownload at hs
  rcases he : env.engineExc with _ | msg
  · rw [he] at hs
    dsimp only at hs
    simp only [List.append_assoc, List.mem_append, List.mem_cons,
      List.not_mem_nil, or_false] at hs
    rcases hs with (rfl | rfl) | hsnap | rfl
    · exact Or.inl rfl
    · exact Or.inr (Or.inl ⟨rfl, rfl, rfl⟩)
    · have hcc := dlSnaps_core env.events _ s hsnap
      exact Or.inr (Or.inl ⟨hcc.2.1, hcc.2.2.1, hcc.2.2.2⟩)
    · have hl := dlSnaps_last_core env.events
        { create_job "download" with status := "running" }
      exact Or.inr (Or.inr (Or.inr ⟨rfl, rfl, hl.2.2.2, rfl⟩))
  · rw [he] at hs
    dsimp only at hs
    simp only [List.append_assoc, List.mem_append, List.mem_cons,
      List.not_mem_nil, or_false] at hs
    rcases hs with (rfl | rfl) | hsnap | rfl
    · exact Or.inl rfl
    · exact Or.inr (Or.inl ⟨rfl, rfl, rfl⟩)
    · have hcc := dlSnaps_core env.events _ s hsnap
      exact Or.inr (Or.inl ⟨hcc.2.1, hcc.2.2.1, hcc.2.2.2⟩)
    · exact Or.inr (Or.inr (Or.inl ⟨_, _, rfl⟩))

theorem invB_queued (k : String) : terminalFieldInvB (create_job k) = true := rfl

theorem invB_run_like (s : JobRec) (hst : s.status = "running")
    (hr : s.result = none) (he : s.error = none) : terminalFieldInvB s = true := by
  simp [terminalFieldInvB, hst, hr, he]

theorem invB_jobError (j : JobRec) (msg : String) :
    terminalFieldInvB (jobError j msg) = true := by
  simp [terminalFieldInvB, jobError]

theorem invB_finished_like (s : JobRec) (hst : s.status = "finished")
    (hr : s.result.isSome = true) (he : s.error = none) :
    terminalFieldInvB s = true := by
  simp [terminalFieldInvB, hst, hr, he]

theorem append_pair_assoc {α : Type} (l : List α) (a b : α) :
    l ++ [a, b] = (l ++ [a]) ++ [b] := by simp

theorem serverDoClip_copyfail_final (times : List ℚ) (msg : String) (meta : ClipMeta)
    (hd : 0 < meta.«end» - meta.start) :
    (finalJob (serverDoClip ⟨true, times, 0, true, some msg⟩ meta).trace).status =
      "error" ∧
    (finalJob (serverDoClip ⟨true, times, 0, true, some msg⟩ meta).trace).error =
      some msg ∧
    (finalJob (serverDoClip ⟨true, times, 0, true, some msg⟩ meta).trace).result =
      some "clip_file" := by
  unfold serverDoClip
  rw [if_neg (by simp :
    ¬((⟨true, times, 0, true, some msg⟩ : ClipEnv).inputExists = false))]
  rw [if_neg (not_le.mpr hd)]
  rw [if_neg (by simp :
    ¬((⟨true, times, 0, true, some msg⟩ : ClipEnv).exitCode ≠ 0))]
  rw [if_pos (by simp :
    ((⟨true, times, 0, true, some msg⟩ : ClipEnv).hasSession = true))]
  dsimp only
  rw [append_pair_assoc]
  unfold finalJob
  rw [List.getLastD_concat]
  exact ⟨rfl, rfl, rfl⟩

theorem appDoTemplateClip_copyfail_final (times : List ℚ) (msg : String)
    (meta : ClipMeta) (hd : 0 < meta.«end» - meta.start) :
    (finalJob (appDoTemplateClip ⟨true, times, 0, true, some msg⟩ meta).trace).status =
      "error" ∧
    (finalJob (appDoTemplateClip ⟨true, times, 0, true, some msg⟩ meta).trace).error =
      some msg ∧
    (finalJob (appDoTemplateClip ⟨true, times, 0, true, some msg⟩ meta).trace).result =
      some "clip_file" := by
  unfold appDoTemplateClip
  rw [if_neg (by simp :
    ¬((⟨true, times, 0, true, some msg⟩ : ClipEnv).inputExists = false))]
  rw [if_neg (not_le.mpr hd)]
  rw [if_neg (by simp :
    ¬((⟨true, times, 0, true, some msg⟩ : ClipEnv).exitCode ≠ 0))]
  rw [if_pos (by simp :
    ((⟨true, times, 0, true, some msg⟩ : ClipEnv).hasSession = true))]
  dsimp only
  rw [append_pair_assoc]
  unfold finalJob
  rw [List.getLastD_concat]
  exact ⟨rfl, rfl, rfl⟩

theorem serverDoDownload_copyfail_final (events : List DlEvent) (msg : String) :
    (finalJob (serverDoDownload ⟨events, none, true, some msg⟩)).status = "error" ∧
    (finalJob (serverDoDownload ⟨events, none, true, some msg⟩)).error = some msg ∧
    (finalJob (serverDoDownload ⟨events, none, true, some msg⟩)).result =
      some "file" := by
  unfold serverDoDownload
  rw [(rfl : (⟨events, none, true, some msg⟩ : DlEnv).engineExc = none)]
  dsimp only
  rw [if_pos (rfl : true = true)]
  rw [append_pair_assoc]
  unfold finalJob
  rw [List.getLastD_concat]
  exact ⟨rfl, rfl, rfl⟩

theorem appDoDownload_success_final (events : List DlEvent) (hasSession : Bool)
    (copyExc : Option String) :
    (finalJob (appDoDownload ⟨events, none, hasSession, copyExc⟩)).status =
      "finished" ∧
    (finalJob (appDoDownload ⟨events, none, hasSession, copyExc⟩)).result =
      some "file" ∧
    (finalJob (appDoDownload ⟨events, none, hasSession, copyExc⟩)).progress = 100 := by
  unfold appDoDownload
  dsimp only
  unfold finalJob
  rw [List.getLastD_concat]
  exact ⟨rfl, rfl, rfl⟩

/-- C1: counterexample.  A clip job with a session id whose ffmpeg run
succeeds but whose session copy raises ends with `status = "error"` while
`result` is still set (the `except` clause only writes status/error): the
claimed "result is non-null iff status = finished" fails on this reachable
terminal state. -/
theorem clip_copy_failure_result_still_set :
    (finalJob (serverDoClip ⟨true, [], 0, true, some "copy failed"⟩
        ⟨0, 5⟩).trace).status = "error" ∧
    (finalJob (serverDoClip ⟨true, [], 0, true, some "copy failed"⟩
        ⟨0, 5⟩).trace).result = some "clip_file" ∧
    (finalJob (serverDoClip ⟨true, [], 0, true, some "copy failed"⟩
        ⟨0, 5⟩).trace).status ≠ "finished" := by
  have h := serverDoClip_copyfail_final [] "copy failed" ⟨0, 5⟩ (by norm_num)
  exact ⟨h.1, h.2.2, by rw [h.1]; decide⟩

/-- C1: amended.  Every reachable job state of the clip and download handlers
satisfies: nothing set while queued/running; `finished` → result set and no
error; `error` → error message set — but an `error` state reached by an
exception *after* the result write (the session copy) retains its `result`,
so "result non-null iff finished" holds only up to that exception window. -/
theorem job_terminal_field_discipline :
    (∀ (env : ClipEnv) (meta : ClipMeta) (s : JobRec),
        s ∈ (serverDoClip env meta).trace → terminalFieldInvB s = true) ∧
    (∀ (env : DlEnv) (s : JobRec),
        s ∈ serverDoDownload env → terminalFieldInvB s = true) ∧
    (∀ (env : DlEnv) (s : JobRec),
        s ∈ appDoDownload env → terminalFieldInvB s = true) := by
  refine ⟨fun env meta s hs => ?_, fun env s hs => ?_, fun env s hs => ?_⟩
  · rcases serverDoClip_trace_cases env meta s hs with rfl | h | ⟨j, msg, rfl⟩ | h
    · exact invB_queued _
    · exact invB_run_like s h.1 h.2.1 h.2.2
    · exact invB_jobError j msg
    · exact invB_finished_like s h.1 (by rw [h.2.1]; rfl) h.2.2.1
  · rcases serverDoDownload_trace_cases env s hs with rfl | h | ⟨j, msg, rfl⟩ | h
    · exact invB_queued _
    · exact invB_run_like s h.1 h.2.1 h.2.2
    · exact invB_jobError j msg
    · exact invB_finished_like s h.1 (by rw [h.2.1]; rfl) h.2.2.1
  · rcases appDoDownload_trace_cases env s hs with rfl | h | ⟨j, msg, rfl⟩ | h
    · exact invB_queued _
    · exact invB_run_like s h.1 h.2.1 h.2.2
    · exact invB_jobError j msg
    · exact invB_finished_like s h.1 (by rw [h.2.1]; rfl) h.2.2.1

/-- Witness for the C1 amended theorem: the freshly created record of a clip
job (env: missing input file) satisfies the discipline. -/
theorem job_terminal_field_discipline_witness :
    terminalFieldInvB (create_job "clip") = true :=
  job_terminal_field_discipline.1 ⟨false, [], 0, false, none⟩ ⟨0, 5⟩
    (create_job "clip") (by simp [serverDoClip])

/-- C3: counterexample.  The download hook's progress is not monotone: after
a tick with known total (100 bytes, 50 downloaded → 50.0) a tick whose
total-bytes becomes unknown writes 0.0 — the committed progress sequence of
that execution is 0, 0, 50, 0, 100, which strictly decreases at the fourth
write while the job is `running`. -/
theorem download_progress_not_monotone :
    ((serverDoDownload ⟨[DlEvent.downloading (some 100) 50,
        DlEvent.downloading none 80], none, false, none⟩).map
      (fun s => s.progress)) = [0, 0, 50, 0, 100] ∧
    ¬ List.Chain' (fun a b => a ≤ b)
      ((serverDoDownload ⟨[DlEvent.downloading (some 100) 50,
          DlEvent.downloading none 80], none, false, none⟩).map
        (fun s => s.progress)) := by
  have h1 : dlProgressValue (some 100) 50 = 50 := by
    unfold dlProgressValue round2
    norm_num
  have h2 : dlProgressValue none 80 = 0 := by
    unfold dlProgressValue round2
    norm_num
  have hmap : ((serverDoDownload ⟨[DlEvent.downloading (some 100) 50,
      DlEvent.downloading none 80], none, false, none⟩).map
        (fun s => s.progress)) = [0, 0, 50, 0, 100] := by
    unfold serverDoDownload
    dsimp only
    simp [dlSnaps, h1, h2, create_job]
  refine ⟨hmap, ?_⟩
  rw [hmap]
  simp only [List.chain'_cons, List.chain'_singleton, and_true]
  push_neg
  intro _ _
  norm_num

/-- C3: amended.  Progress discipline as implemented: a job is created with
progress 0; clip-handler writes are clamped to at most 100 and are
non-decreasing whenever the parsed `time=` values are non-decreasing; a clip
job that ends `finished` has progress exactly 100.  The download hook,
however, writes `round(downloaded/total·100, 2)` with *no* upper clamp (a
downloaded count above the estimated total yields a value above 100, e.g.
150) and writes 0.0 whenever total-bytes is unknown, so downloaded progress
is neither monotone nor bounded by 100 in general. -/
theorem progress_discipline :
    (∀ k : String, (create_job k).progress = 0) ∧
    (∀ d t : ℚ, clipProgressValue d t ≤ 100) ∧
    (∀ (d : ℚ) (ts : List ℚ), 0 < d → List.Chain' (fun a b => a ≤ b) ts →
        List.Chain' (fun a b => a ≤ b) (ts.map (clipProgressValue d))) ∧
    (∀ downloaded : ℚ, dlProgressValue none downloaded = 0) ∧
    dlProgressValue (some 100) 150 = 150 ∧
    (∀ (env : ClipEnv) (meta : ClipMeta),
        (finalJob (serverDoClip env meta).trace).status = "finished" →
        (finalJob (serverDoClip env meta).trace).progress = 100) := by
  refine ⟨fun k => rfl, clipProgressValue_le_100, ?_, ?_, ?_, ?_⟩
  · intro d ts hd hts
    rw [List.chain'_map]
    exact hts.imp fun a b hab => clipProgressValue_mono hd hab
  · intro downloaded
    unfold dlProgressValue round2
    norm_num
  · unfold dlProgressValue round2
    norm_num
  · intro env meta hf
    unfold finalJob at hf ⊢
    rcases getLastD_mem_or ((serverDoClip env meta).trace) (create_job "") with h | h
    · rw [h] at hf
      simp [create_job] at hf
    · rcases serverDoClip_trace_cases env meta _ h with heq | hr | ⟨j, msg, heq⟩ | hfin
      · rw [heq] at hf
        simp [create_job] at hf
      · rw [hr.1] at hf
        simp at hf
      · rw [heq] at hf
        simp [jobError] at hf
      · exact hfin.2.2.2

/-- Witness for the C3 amended theorem: instantiating the chain-preservation
part on a concrete non-decreasing time list and the finished-progress part
on a concrete successful clip execution. -/
theorem progress_discipline_witness :
    List.Chain' (fun a b : ℚ => a ≤ b) ([1, 2].map (clipProgressValue 5)) ∧
    (finalJob (serverDoClip ⟨true, [], 0, false, none⟩ ⟨0, 5⟩).trace).progress =
      100 := by
  constructor
  · exact progress_discipline.2.2.1 5 [1, 2] (by norm_num)
      (by simp [List.chain'_cons])
  · apply progress_discipline.2.2.2.2.2 ⟨true, [], 0, false, none⟩ ⟨0, 5⟩
    unfold serverDoClip finalJob
    rw [if_neg (by simp :
      ¬((⟨true, [], 0, false, none⟩ : ClipEnv).inputExists = false))]
    rw [if_neg (by norm_num :
      ¬((⟨0, 5⟩ : ClipMeta).«end» - (⟨0, 5⟩ : ClipMeta).start ≤ 0))]
    rw [if_neg (by simp :
      ¬((⟨true, [], 0, false, none⟩ : ClipEnv).exitCode ≠ 0))]
    rw [if_neg (by simp :
      ¬((⟨true, [], 0, false, none⟩ : ClipEnv).hasSession = true))]
    rfl

/-- C5: counterexample.  A download job (server.py) whose engine run succeeds
but whose session copy raises ends in `status = "error"`, not `finished`:
the copy failure *is* converted into a terminal error status (the copy is
inside the handler's `try`), contradicting the claim for this handler. -/
theorem download_copy_failure_fails_job :
    (finalJob (serverDoDownload ⟨[], none, true, some "copy failed"⟩)).status =
      "error" ∧
    (finalJob (serverDoDownload ⟨[], none, true, some "copy failed"⟩)).status ≠
      "finished" ∧
    (finalJob (serverDoDownload ⟨[], none, true, some "copy failed"⟩)).result =
      some "file" := by
  have h := serverDoDownload_copyfail_final [] "copy failed"
  exact ⟨h.1, by rw [h.1]; decide, h.2.2⟩

/-- C5: amended.  Only the FastAPI download handler shields the session copy
(`try/except: pass`): there a copy failure leaves the job `finished` with its
result.  In the Flask download handler and in the clip / template-clip
handlers (both variants; merge and transcribe share the same structure) the
copy runs inside the handler's `try`, so a copy failure after the result
write flips the job to `error` (with `result` left set). -/
theorem session_copy_failure_policy :
    (∀ (events : List DlEvent) (hasSession : Bool) (copyExc : Option String),
        (finalJob (appDoDownload ⟨events, none, hasSession, copyExc⟩)).status =
          "finished" ∧
        (finalJob (appDoDownload ⟨events, none, hasSession, copyExc⟩)).result =
          some "file") ∧
    (∀ (events : List DlEvent) (msg : String),
        (finalJob (serverDoDownload ⟨events, none, true, some msg⟩)).status =
          "error" ∧
        (finalJob (serverDoDownload ⟨events, none, true, some msg⟩)).error =
          some msg ∧
        (finalJob (serverDoDownload ⟨events, none, true, some msg⟩)).result =
          some "file") ∧
    (∀ (times : List ℚ) (msg : String) (meta : ClipMeta),
        0 < meta.«end» - meta.start →
        (finalJob (serverDoClip ⟨true, times, 0, true, some msg⟩
            meta).trace).status = "error" ∧
        (finalJob (serverDoClip ⟨true, times, 0, true, some msg⟩
            meta).trace).result = some "clip_file") ∧
    (∀ (times : List ℚ) (msg : String) (meta : ClipMeta),
        0 < meta.«end» - meta.start →
        (finalJob (appDoTemplateClip ⟨true, times, 0, true, some msg⟩
            meta).trace).status = "error" ∧
        (finalJob (appDoTemplateClip ⟨true, times, 0, true, some msg⟩
            meta).trace).result = some "clip_file") := by
  refine ⟨?_, ?_, ?_, ?_⟩
  · intro events hasSession copyExc
    have h := appDoDownload_success_final events hasSession copyExc
    exact ⟨h.1, h.2.1⟩
  · intro events msg
    exact serverDoDownload_copyfail_final events msg
  · intro times msg meta hd
    have h := serverDoClip_copyfail_final times msg meta hd
    exact ⟨h.1, h.2.2⟩
  · intro times msg meta hd
    have h := appDoTemplateClip_copyfail_final times msg meta hd
    exact ⟨h.1, h.2.2⟩

/-- Witness for the C5 amended theorem at concrete executions. -/
theorem session_copy_failure_policy_witness :
    (finalJob (serverDoClip ⟨true, [], 0, true, some "oops"⟩ ⟨0, 5⟩).trace).status =
      "error" ∧
    (finalJob (appDoTemplateClip ⟨true, [], 0, true, some "oops"⟩
        ⟨0, 5⟩).trace).status = "error" ∧
    (finalJob (appDoDownload ⟨[], none, true, some "oops"⟩)).status = "finished" :=
  ⟨(session_copy_failure_policy.2.2.1 [] "oops" ⟨0, 5⟩ (by norm_num)).1,
   (session_copy_failure_policy.2.2.2 [] "oops" ⟨0, 5⟩ (by norm_num)).1,
   (session_copy_failure_policy.1 [] true (some "oops")).1⟩

end VMaker
